import Mathlib

/-!
Shallow embedding of the Kaetram client `Canvas` renderer (canvas.ts) and the
pieces of its collaborators that its behaviour depends on.  Pure computations
(geometry, flip resolution) become Lean functions; the mutable renderer state
(the two geometry caches and the animated-tile collection) becomes an explicit
state record threaded through the drawing functions; drawing calls on a canvas
context are recorded as a trace of operations.
-/

/-- Transform flags for a tile, mirroring the `TileFlip` enum in the source. -/
inductive TileFlip
  | Horizontal
  | Vertical
  | Diagonal
deriving DecidableEq, Repr

/-- Drawing surfaces available to the canvas renderer: the background context
`backContext`, the foreground context `foreContext`, and the overlay context. -/
inductive Surface
  | back
  | fore
  | overlay
deriving DecidableEq, Repr

/-- Cached source-rectangle geometry for one tile id (`RendererTile` in the source). -/
structure RendererTile where
  relativeTileId : Int
  setWidth : Nat
  x : Int
  y : Int
  width : Nat
  height : Nat
deriving DecidableEq, Repr, Inhabited

/-- Cached destination-rectangle geometry for one map index (`RendererCell` in the source). -/
structure RendererCell where
  dx : Int
  dy : Int
  width : Int
  height : Int
deriving DecidableEq, Repr, Inhabited

/-- Observable canvas-context operations emitted while drawing.  `blit` records a
`context.drawImage` call with its source rectangle and destination rectangle;
`rotateQuarter` records `context.rotate(Math.PI / 2)`. -/
inductive CtxOp
  | save (s : Surface)
  | scaleOp (s : Surface) (x y : Int)
  | rotateQuarter (s : Surface)
  | translateOp (s : Surface) (x y : Int)
  | blit (s : Surface) (sx sy : Int) (sw sh : Nat) (dx dy : Int) (dw dh : Int)
  | restore (s : Surface)
deriving DecidableEq, Repr

/-- The surface an operation acts on. -/
def CtxOp.surface : CtxOp → Surface
  | .save s => s
  | .scaleOp s _ _ => s
  | .rotateQuarter s => s
  | .translateOp s _ _ => s
  | .blit s _ _ _ _ _ _ _ _ => s
  | .restore s => s

/-- Whether an operation is a `context.drawImage` call. -/
def CtxOp.isBlit : CtxOp → Bool
  | .blit _ _ _ _ _ _ _ _ _ => true
  | _ => false

/-- Number of `Diagonal` entries in a flip list (used as a termination measure:
each processed `Diagonal` appends one non-`Diagonal` element). -/
def countDiag : List TileFlip → Nat
  | [] => 0
  | TileFlip.Diagonal :: rest => countDiag rest + 1
  | _ :: rest => countDiag rest

/-- The synthetic flip appended when a `Diagonal` is processed: `Horizontal`
when the element immediately following the `Diagonal` is `Horizontal`,
otherwise `Vertical` (this also covers the case of no following element). -/
def synthFlip (rest : List TileFlip) : TileFlip :=
  if rest.head? = some TileFlip.Horizontal then TileFlip.Horizontal else TileFlip.Vertical

/-- Embedding of the destination-adjustment loop inside `Canvas.drawImage`.
The source iterates `for (index = 0; index < flips.length; index++)` over a
list that the `Diagonal` case mutates by pushing a synthetic flip; here `acc`
is the already-processed prefix (positions `< index`) and the second list
argument is the remaining suffix, so pushes land at the end of the suffix and
the full list at any instant is `acc ++ remaining`.  Returns the final
destination deltas `dx, dy`, the final (mutated) flip list, and the trace of
context operations performed. -/
def flipLoop (s : Surface) (cell : RendererCell) (tempX : Int) :
    List TileFlip → List TileFlip → Int → Int → List CtxOp →
    Int × Int × List TileFlip × List CtxOp
  | acc, [], dx, dy, ops => (dx, dy, acc, ops)
  | acc, TileFlip.Horizontal :: rest, dx, dy, ops =>
      flipLoop s cell tempX (acc ++ [TileFlip.Horizontal]) rest (-dx - cell.width) dy
        (ops ++ [CtxOp.scaleOp s (-1) 1])
  | acc, TileFlip.Vertical :: rest, dx, dy, ops =>
      flipLoop s cell tempX (acc ++ [TileFlip.Vertical]) rest dx (-dy - cell.height)
        (ops ++ [CtxOp.scaleOp s 1 (-1)])
  | acc, TileFlip.Diagonal :: rest, dx, dy, ops =>
      flipLoop s cell tempX (acc ++ [TileFlip.Diagonal]) (rest ++ [synthFlip rest]) dy (-tempX)
        (ops ++ [CtxOp.rotateQuarter s, CtxOp.translateOp s 0 (-cell.height)])
termination_by _ remaining _ _ _ => 2 * remaining.count TileFlip.Diagonal + remaining.length
decreasing_by
  all_goals simp [List.count_cons, List.count_append, synthFlip]
  all_goals (repeat' split)
  all_goals simp_all

/-- JavaScript falsy-or on numbers: `a || b` evaluates to `b` when `a` is `0`. -/
def jsOr (a b : Int) : Int := if a = 0 then b else a

/-- Embedding of `Canvas.drawImage`.  With a non-empty flip list the context is
saved, the adjustment loop runs (starting from the cell's destination
coordinates, with `tempX` latched to the initial `dx`), the blit is issued at
`dx || cell.dx`, `dy || cell.dy`, and the context is restored; with no flips
the deltas stay `0` so the blit lands exactly at the cell rectangle. -/
def drawImage (s : Surface) (tile : RendererTile) (cell : RendererCell)
    (flips : List TileFlip) : List CtxOp :=
  let isFlipped := flips.length > 0
  let r := if isFlipped then flipLoop s cell cell.dx [] flips cell.dx cell.dy []
           else ((0 : Int), (0 : Int), flips, ([] : List CtxOp))
  (if isFlipped then [CtxOp.save s] else []) ++ r.2.2.2 ++
    [CtxOp.blit s tile.x tile.y tile.width tile.height
      (jsOr r.1 cell.dx) (jsOr r.2.1 cell.dy) cell.width cell.height] ++
    (if isFlipped then [CtxOp.restore s] else [])

/-- A tileset as consumed from the `Map` collaborator: image width in pixels
and the first global tile id it covers. -/
structure Tileset where
  width : Nat
  firstGid : Int
deriving DecidableEq, Repr

/-- Read-only view of the `Map` collaborator: the per-tile classification
queries and data that `canvas.ts` consults. -/
structure GameMap where
  width : Nat
  isHighTile : Int → Bool
  isAnimatedTile : Int → Bool
  isLightTile : Int → Bool
  getTilesetFromId : Int → Option Tileset
  getTileAnimation : Int → Nat
  dynamicAnimatedTiles : Nat → Bool

/-- Modelled from the spec: the animated `Tile` entity class (`./tile`) is not
in `src/`; the source shows only the constructor call
`new Tile(tileId, index, animation, isFlipped, isHighTile)` and the fields
`id`, `isFlipped`, `isHighTile`, `animationIndex`, `lastAccessed` that
`canvas.ts` reads or writes.  Per spec sections 3 and 4.3 the entity holds an
immutable identity (tile id, position index, flip flag, layer flag), an
animation definition, and mutable playback state (current animation frame
index, last-accessed time). -/
structure Tile where
  id : Int
  index : Int
  animation : Nat
  isFlipped : Bool
  isHighTile : Bool
  animationIndex : Nat
  lastAccessed : Nat
deriving DecidableEq, Repr

/-- Modelled from the spec: construction of a new animated `Tile` (argument
order taken from the call site in `addAnimatedTile`); playback state starts at
the first animation frame with no recorded access. -/
def Tile.create (id index : Int) (animation : Nat) (isFlipped isHighTile : Bool) : Tile :=
  { id := id, index := index, animation := animation, isFlipped := isFlipped,
    isHighTile := isHighTile, animationIndex := 0, lastAccessed := 0 }

/-- Key into the animated-tile collection: the plain tile id, or the string
`tileId-index` used for dynamically animated tiles. -/
inductive TileIdent
  | plain (tileId : Int)
  | dynamic (tileId : Int) (index : Int)
deriving DecidableEq, Repr

/-- Lookup in an association list (JavaScript object property read). -/
def alookup {α β : Type} [DecidableEq α] : List (α × β) → α → Option β
  | [], _ => none
  | (k, v) :: rest, k' => if k = k' then some v else alookup rest k'

/-- Overwrite-or-append in an association list (JavaScript object property write). -/
def ainsert {α β : Type} [DecidableEq α] : List (α × β) → α → β → List (α × β)
  | [], k, v => [(k, v)]
  | (k₀, v₀) :: rest, k, v =>
      if k₀ = k then (k, v) :: rest else (k₀, v₀) :: ainsert rest k v

/-- The renderer's private mutable state: the tile-geometry cache `tiles`
(keyed by tile id), the cell-geometry cache `cells` (keyed by map index), and
the animated-tile collection `animatedTiles`. -/
structure CanvasState where
  tiles : List (Int × RendererTile)
  cells : List (Nat × RendererCell)
  animatedTiles : List (TileIdent × Tile)
deriving DecidableEq, Repr

/-- Read-only environment for one draw pass: the map, the configured and
zoom-scaled tile sizes, and the external flags and clock that `canvas.ts`
reads from the renderer base class and the game object. -/
structure Env where
  map : GameMap
  tileSize : Nat
  actualTileSize : ℚ
  animateTiles : Bool
  hasOverlay : Bool
  gameTime : Nat
  hasRenderedFrame : Bool

/-- Modelled from the spec: `getX` is provided by the `Renderer` base class,
which is not in `src/`.  Spec section 8 fixes its behaviour at the cell-cache
call site — `destX = (index % mapWidth) * actualTileSize` for the call
`getX(index + 1, mapWidth)` — so `getX n w` is the zero-based column of grid
slot `n - 1` in a grid `w` slots wide. -/
def getX (n : Int) (w : Nat) : Int := (n - 1) % (w : Int)

/-- Tile-geometry computation from `Canvas.drawTile` (the body of the
`!(tileId in this.tiles)` branch).  `setWidth = tileset.width / tileSize` is a
JavaScript numeric division; tileset images are a whole number of tiles wide,
so it is embedded as exact natural division, and `Math.floor` of the
relative-id row division is floor division on integers. -/
def computeRendererTile (env : Env) (tileset : Tileset) (tileId : Int) : RendererTile :=
  let setWidth := tileset.width / env.tileSize
  let relativeTileId := tileId - tileset.firstGid
  { relativeTileId := relativeTileId
    setWidth := setWidth
    x := getX (relativeTileId + 1) setWidth * env.tileSize
    y := Int.fdiv relativeTileId setWidth * env.tileSize
    width := env.tileSize
    height := env.tileSize }

/-- Cell-geometry computation from `Canvas.drawTile` (the body of the
`!(index in this.cells) || flips.length > 0` branch): destination rectangle at
the index's column and row, scaled by the zoomed tile size and rounded up. -/
def computeRendererCell (env : Env) (index : Nat) : RendererCell :=
  { dx := ⌈(getX ((index : Int) + 1) env.map.width : ℚ) * env.actualTileSize⌉
    dy := ⌈((index / env.map.width : Nat) : ℚ) * env.actualTileSize⌉
    width := ⌈env.actualTileSize⌉
    height := ⌈env.actualTileSize⌉ }

/-- Embedding of `Canvas.drawTile`: skip negative ids and unresolvable
tilesets, populate the two geometry caches (the cell entry is recomputed
whenever any flip is present), then blit via `drawImage`. -/
def drawTile (env : Env) (st : CanvasState) (s : Surface) (tileId : Int) (index : Nat)
    (flips : List TileFlip) : CanvasState × List CtxOp :=
  if tileId < 0 then (st, [])
  else
    match env.map.getTilesetFromId tileId with
    | none => (st, [])
    | some tileset =>
        let tiles :=
          if alookup st.tiles tileId = none then
            ainsert st.tiles tileId (computeRendererTile env tileset tileId)
          else st.tiles
        let cells :=
          if alookup st.cells index = none ∨ flips.length > 0 then
            ainsert st.cells index (computeRendererCell env index)
          else st.cells
        ({ st with tiles := tiles, cells := cells },
          drawImage s ((alookup tiles tileId).getD default) ((alookup cells index).getD default)
            flips)

/-- The per-tile body of `Canvas.resetAnimatedTiles`: zero the animation frame
index, keeping everything else. -/
def resetTile (t : Tile) : Tile :=
  { t with animationIndex := 0 }

/-- One step of the `resetAnimatedTiles` iteration over the collection's
entries: reset the entry's tile, keep its key. -/
def resetEntry (p : TileIdent × Tile) : TileIdent × Tile :=
  (p.1, resetTile p.2)

/-- Embedding of `Canvas.resetAnimatedTiles`: zero the animation frame index of
every animated tile in the collection. -/
def resetAnimatedTiles (st : CanvasState) : CanvasState :=
  { st with animatedTiles := st.animatedTiles.map resetEntry }

/-- Embedding of `Canvas.addAnimatedTile`: create the new `Tile` (with the
`isFlipped` argument fixed to `false` at the call site), store it under its
identifier, then synchronize via `resetAnimatedTiles`. -/
def addAnimatedTile (env : Env) (st : CanvasState) (tileId : Int) (index : Int) : CanvasState :=
  let identifier := if index = -1 then TileIdent.plain tileId else TileIdent.dynamic tileId index
  let t := Tile.create tileId index (env.map.getTileAnimation tileId) false
    (env.map.isHighTile tileId)
  resetAnimatedTiles { st with animatedTiles := ainsert st.animatedTiles identifier t }

/-- Exit path taken by `drawAnimatedTile`: the `animateTiles` guard, the
defensive missing-tile guard, the flipped-tile de-duplication guard, or an
actual draw through `drawTile`. -/
inductive AnimExit
  | disabled
  | missing
  | dedup
  | drawn
deriving DecidableEq, Repr

/-- Embedding of `Canvas.drawAnimatedTile`: returns the updated state, the
emitted context operations, and which exit path the call took. -/
def drawAnimatedTile (env : Env) (st : CanvasState) (tile : Int) (index : Nat)
    (flips : List TileFlip) : CanvasState × List CtxOp × AnimExit :=
  if env.animateTiles = false then (st, [], AnimExit.disabled)
  else
    let isDynamicallyAnimated := env.map.dynamicAnimatedTiles index
    let identifier :=
      if isDynamicallyAnimated then TileIdent.dynamic tile (index : Int)
      else TileIdent.plain tile
    let st₁ :=
      if alookup st.animatedTiles identifier = none then
        addAnimatedTile env st tile (if isDynamicallyAnimated then (index : Int) else -1)
      else st
    match alookup st₁.animatedTiles identifier with
    | none => (st₁, [], AnimExit.missing)
    | some animatedTile =>
        let st₂ := { st₁ with
          animatedTiles := ainsert st₁.animatedTiles identifier
            { animatedTile with lastAccessed := env.gameTime } }
        if flips.length = 0 ∧ animatedTile.isFlipped then (st₂, [], AnimExit.dedup)
        else
          let context := if animatedTile.isHighTile then Surface.fore else Surface.back
          let r := drawTile env st₂ context (animatedTile.id + 1) index flips
          (r.1, r.2, AnimExit.drawn)

/-- A visible map tile as delivered to the draw loop: either a plain tile id,
or a composite record carrying a tile id plus the per-axis flip flags `h`,
`v`, `d` (spec section 6 notes composite records are exactly the flipped
tiles, so at least one flag is set on every composite record the map emits). -/
inductive ClientTile
  | plain (id : Int)
  | transformed (tileId : Int) (h v d : Bool)
deriving DecidableEq, Repr

/-- The `h` flag of a visible-tile record (`false` on a plain id). -/
def ClientTile.hFlag : ClientTile → Bool
  | .plain _ => false
  | .transformed _ h _ _ => h

/-- The `v` flag of a visible-tile record (`false` on a plain id). -/
def ClientTile.vFlag : ClientTile → Bool
  | .plain _ => false
  | .transformed _ _ v _ => v

/-- The `d` flag of a visible-tile record (`false` on a plain id). -/
def ClientTile.dFlag : ClientTile → Bool
  | .plain _ => false
  | .transformed _ _ _ d => d

/-- The tile id carried by a visible-tile record. -/
def ClientTile.tileId : ClientTile → Int
  | .plain i => i
  | .transformed tid _ _ _ => tid

/-- Modelled from the spec: `map.isFlipped(tile)` (the `Map` collaborator is
not in `src/`) holds exactly when the visible-tile record is a composite
record with at least one flip flag set. -/
def isFlippedTile : ClientTile → Bool
  | .plain _ => false
  | .transformed _ h v d => h || v || d

/-- Embedding of `Canvas.getFlipped`: empty when the map does not classify the
tile as flipped, otherwise the set flags in the fixed order `Vertical`,
`Diagonal`, `Horizontal`. -/
def getFlipped (t : ClientTile) : List TileFlip :=
  if isFlippedTile t = false then []
  else
    (if t.vFlag then [TileFlip.Vertical] else []) ++
      (if t.dFlag then [TileFlip.Diagonal] else []) ++
        (if t.hFlag then [TileFlip.Horizontal] else [])

/-- The body of the `forEachVisibleTile` callback in `Canvas.draw`: extract the
flip list and effective tile id, pick the destination surface (foreground for
high tiles, else background; overridden by the overlay surface for light tiles
while an overlay is active), then dispatch to the animated or plain draw path.
The source reassigns `tile = tile.tileId` only when the flip list is
non-empty; a composite record always carries flips (see `ClientTile`), so the
embedding reads the carried id uniformly. -/
def drawOne (env : Env) (st : CanvasState) (t : ClientTile) (index : Nat) :
    CanvasState × List CtxOp :=
  let flips := getFlipped t
  let tile := t.tileId
  let isHighTile := env.map.isHighTile tile
  let animated := env.map.isAnimatedTile tile
  let context := if isHighTile then Surface.fore else Surface.back
  let context :=
    if env.hasOverlay then
      if env.map.isLightTile tile then Surface.overlay else context
    else context
  if env.animateTiles && animated then
    let r := drawAnimatedTile env st tile index flips
    (r.1, r.2.1)
  else drawTile env st context tile index flips

/-- The visible-tile loop of `Canvas.draw`, folded over the camera's visible
tiles in order.  The surrounding clear, save, background-fill, camera-view and
restore steps act on external base-class state and are not part of the
recorded tile-drawing trace. -/
def drawVisible (env : Env) (st : CanvasState) (visible : List (ClientTile × Nat)) :
    CanvasState × List CtxOp :=
  visible.foldl
    (fun acc p =>
      let r := drawOne env acc.1 p.1 p.2
      (r.1, acc.2 ++ r.2))
    (st, [])

/-- Embedding of `Canvas.draw`: the frame-cache short-circuit followed by the
visible-tile loop. -/
def draw (env : Env) (st : CanvasState) (visible : List (ClientTile × Nat)) :
    CanvasState × List CtxOp :=
  if env.hasRenderedFrame then (st, []) else drawVisible env st visible

/-- Embedding of `Canvas.resize`: after the base-class resize, the cell cache
is cleared wholesale; nothing else in the renderer's state is touched. -/
def resize (st : CanvasState) : CanvasState :=
  { st with cells := [] }

/-- Destination surface according to the spec's layer-routing rule (stated as
an ordered rule list, first match wins): the overlay while an overlay is
active and the map flags the id as a light tile; otherwise the foreground for
high tiles; otherwise the background.  Defined from the spec's words in order
to compare against the chained reassignment in `drawOne`. -/
def routedSurface (env : Env) (tile : Int) : Surface :=
  if env.hasOverlay ∧ env.map.isLightTile tile then Surface.overlay
  else if env.map.isHighTile tile then Surface.fore else Surface.back

/-- Context operation emitted when the adjustment loop processes a
non-diagonal flip (the `Diagonal` case emits a rotation and a translation and
is handled separately). -/
def scaleOpFor (s : Surface) : TileFlip → CtxOp
  | TileFlip.Horizontal => CtxOp.scaleOp s (-1) 1
  | TileFlip.Vertical => CtxOp.scaleOp s 1 (-1)
  | TileFlip.Diagonal => CtxOp.rotateQuarter s

/-- Concrete map data used by the witness instances: a 10-tile-wide map with a
single 160-pixel-wide tileset covering ids 0 to 199, high tiles from id 100,
tile id 7 animated, tile id 50 a light tile, no dynamically animated indices. -/
def mapW : GameMap :=
  { width := 10
    isHighTile := fun i => decide (100 ≤ i)
    isAnimatedTile := fun i => decide (i = 7)
    isLightTile := fun i => decide (i = 50)
    getTilesetFromId := fun i => if 0 ≤ i ∧ i < 200 then some ⟨160, 1⟩ else none
    getTileAnimation := fun _ => 3
    dynamicAnimatedTiles := fun _ => false }

/-- Concrete environment for the witness instances: tile size 16, zoomed tile
size 47.5 device pixels, tile animation enabled, no overlay. -/
def envW : Env :=
  { map := mapW, tileSize := 16, actualTileSize := 95 / 2, animateTiles := true,
    hasOverlay := false, gameTime := 42, hasRenderedFrame := false }

/-- Empty renderer state used by witness instances. -/
def stW : CanvasState := { tiles := [], cells := [], animatedTiles := [] }

/-- Pre-resize renderer state with a populated tile cache and cell cache, for
the C3 witness. -/
def stResizeW : CanvasState :=
  { tiles := [(5, default)], cells := [(12, default)], animatedTiles := [] }

/-- Previously registered animated tile with a non-zero frame index, for the
C4 witness. -/
def tileOldW : Tile :=
  { id := 3, index := -1, animation := 1, isFlipped := false, isHighTile := false,
    animationIndex := 5, lastAccessed := 9 }

/-- Tile geometry used by the C7 input. -/
def tileC7 : RendererTile := ⟨4, 10, 64, 16, 16, 16⟩

/-- Cell geometry used by the C7 counterexample: the cell at column 3 of
row 0, so `dx = 3` and `dy = 0`. -/
def cellC7 : RendererCell := ⟨3, 0, 48, 48⟩

theorem countDiag_append (l₁ l₂ : List TileFlip) :
    countDiag (l₁ ++ l₂) = countDiag l₁ + countDiag l₂ := by
  induction l₁ with
  | nil => simp [countDiag]
  | cons a l ih => cases a <;> simp [countDiag, ih] <;> omega

theorem countDiag_synthFlip (rest : List TileFlip) : countDiag [synthFlip rest] = 0 := by
  unfold synthFlip
  split <;> rfl

theorem alookup_ainsert_self {α β : Type} [DecidableEq α] (l : List (α × β)) (k : α) (v : β) :
    alookup (ainsert l k v) k = some v := by
  induction l with
  | nil => simp [ainsert, alookup]
  | cons p rest ih =>
      obtain ⟨k₀, v₀⟩ := p
      by_cases h : k₀ = k
      · simp [ainsert, h, alookup]
      · simp [ainsert, h, alookup, ih]

theorem alookup_ainsert_ne {α β : Type} [DecidableEq α] (l : List (α × β)) (k k' : α) (v : β)
    (h : k ≠ k') : alookup (ainsert l k v) k' = alookup l k' := by
  induction l with
  | nil => simp [ainsert, alookup, h]
  | cons p rest ih =>
      obtain ⟨k₀, v₀⟩ := p
      by_cases h₀ : k₀ = k
      · subst h₀
        simp [ainsert, alookup, h, ih]
      · simp [ainsert, h₀, alookup, ih]

theorem alookup_map_resetEntry (l : List (TileIdent × Tile)) (k : TileIdent) :
    alookup (l.map resetEntry) k = (alookup l k).map resetTile := by
  induction l with
  | nil => simp [alookup]
  | cons p rest ih =>
      obtain ⟨k₀, v₀⟩ := p
      by_cases h : k₀ = k
      · simp [alookup, resetEntry, h]
      · simp [alookup, resetEntry, h, ih]

theorem mem_ainsert {α β : Type} [DecidableEq α] (l : List (α × β)) (k : α) (v : β) (p : α × β)
    (h : p ∈ ainsert l k v) : p = (k, v) ∨ p ∈ l := by
  induction l with
  | nil => simpa [ainsert] using h
  | cons q rest ih =>
      obtain ⟨k₀, v₀⟩ := q
      by_cases h₀ : k₀ = k
      · simp only [ainsert, if_pos h₀, List.mem_cons] at h
        rcases h with h | h
        · exact Or.inl h
        · exact Or.inr (List.mem_cons_of_mem _ h)
      · simp only [ainsert, if_neg h₀, List.mem_cons] at h
        rcases h with h | h
        · exact Or.inr (h ▸ List.mem_cons_self _ _)
        · rcases ih h with h' | h'
          · exact Or.inl h'
          · exact Or.inr (List.mem_cons_of_mem _ h')

theorem alookup_mem {α β : Type} [DecidableEq α] (l : List (α × β)) (k : α) (v : β)
    (h : alookup l k = some v) : (k, v) ∈ l := by
  induction l with
  | nil => simp [alookup] at h
  | cons p rest ih =>
      obtain ⟨k₀, v₀⟩ := p
      by_cases h₀ : k₀ = k
      · subst h₀
        simp only [alookup] at h
        simp at h
        subst h
        exact List.mem_cons_self _ _
      · simp only [alookup, if_neg h₀] at h
        exact List.mem_cons_of_mem _ (ih h)

/-- C3: after `resize()` the Cell Geometry cache is empty, so a subsequent
`drawTile` query recomputes the cell entry afresh, while the Tile Geometry
cache (and the animated-tile collection) are left exactly as they were. -/
theorem resize_invalidates_cells_only (env : Env) (st : CanvasState) (s : Surface)
    (tileId : Int) (index : Nat) (flips : List TileFlip) (tileset : Tileset)
    (hneg : ¬ tileId < 0) (hts : env.map.getTilesetFromId tileId = some tileset) :
    (resize st).cells = [] ∧
      alookup (resize st).cells index = none ∧
      (resize st).tiles = st.tiles ∧
      (resize st).animatedTiles = st.animatedTiles ∧
      alookup ((drawTile env (resize st) s tileId index flips).1.cells) index =
        some (computeRendererCell env index) := by
  refine ⟨rfl, rfl, rfl, rfl, ?_⟩
  simp [resize, drawTile, hneg, hts, alookup, alookup_ainsert_self]

/-- C3 witness: the concrete instance of the resize-invalidation theorem at a
state whose caches are non-empty. -/
theorem resize_invalidates_cells_only_witness :
    (resize stResizeW).cells = [] ∧
      alookup (resize stResizeW).cells 12 = none ∧
      (resize stResizeW).tiles = stResizeW.tiles ∧
      (resize stResizeW).animatedTiles = stResizeW.animatedTiles ∧
      alookup ((drawTile envW (resize stResizeW) Surface.back 5 12 []).1.cells) 12 =
        some (computeRendererCell envW 12) :=
  resize_invalidates_cells_only envW stResizeW Surface.back 5 12 [] ⟨160, 1⟩
    (by decide) (by decide)

/-- C9: `drawTile` is a silent no-op — the state (both geometry caches and the
animated-tile collection) is unchanged and no context operation is emitted —
when the tile id is negative or when the map resolves no tileset for it. -/
theorem drawTile_silent_noop (env : Env) (st : CanvasState) (s : Surface) (tileId : Int)
    (index : Nat) (flips : List TileFlip)
    (h : tileId < 0 ∨ env.map.getTilesetFromId tileId = none) :
    drawTile env st s tileId index flips = (st, []) := by
  rcases h with h | h
  · simp [drawTile, h]
  · by_cases hneg : tileId < 0
    · simp [drawTile, hneg]
    · simp [drawTile, hneg, h]

/-- C9 witness: concrete no-op calls for a negative tile id and for a tile id
with no tileset. -/
theorem drawTile_silent_noop_witness :
    drawTile envW stW Surface.back (-3) 12 [] = (stW, []) ∧
      drawTile envW stW Surface.back 5000 12 [] = (stW, []) :=
  ⟨drawTile_silent_noop envW stW Surface.back (-3) 12 [] (Or.inl (by decide)),
   drawTile_silent_noop envW stW Surface.back 5000 12 [] (Or.inr (by decide))⟩

/-- C4: after any `addAnimatedTile` call, every animated tile in the
collection — previously registered ones and the newly constructed one — has
its animation frame index equal to `0`. -/
theorem addAnimatedTile_resets_all_frames (env : Env) (st : CanvasState) (tileId : Int)
    (index : Int) (k : TileIdent) (t : Tile)
    (h : alookup (addAnimatedTile env st tileId index).animatedTiles k = some t) :
    t.animationIndex = 0 := by
  unfold addAnimatedTile resetAnimatedTiles at h
  rw [alookup_map_resetEntry] at h
  obtain ⟨a, -, rfl⟩ := Option.map_eq_some'.mp h
  rfl

/-- C4 witness: adding animated tile id 7 to a collection already holding tile
id 3 at frame index 5 leaves the old tile at frame index 0. -/
theorem addAnimatedTile_resets_all_frames_witness :
    alookup (addAnimatedTile envW
        { tiles := [], cells := [], animatedTiles := [(TileIdent.plain 3, tileOldW)] }
        7 (-1)).animatedTiles (TileIdent.plain 3) =
      some { tileOldW with animationIndex := 0 } ∧
    ({ tileOldW with animationIndex := 0 } : Tile).animationIndex = 0 :=
  ⟨by decide,
   addAnimatedTile_resets_all_frames envW
     { tiles := [], cells := [], animatedTiles := [(TileIdent.plain 3, tileOldW)] }
     7 (-1) (TileIdent.plain 3) _ (by decide)⟩

/-- C8: Tile Geometry is memoized per tile id — the first `drawTile` call on an
uncached tile id stores exactly the computed geometry, a second call with the
same tile id leaves the tile cache untouched (no recomputation, whatever index
or flips it carries), and the cached entry's width and height equal the
configured tile size. -/
theorem tile_geometry_memoized (env : Env) (st : CanvasState) (s s' : Surface) (tileId : Int)
    (index index' : Nat) (flips flips' : List TileFlip) (tileset : Tileset)
    (hneg : ¬ tileId < 0) (hts : env.map.getTilesetFromId tileId = some tileset)
    (hmiss : alookup st.tiles tileId = none) :
    alookup ((drawTile env st s tileId index flips).1.tiles) tileId =
        some (computeRendererTile env tileset tileId) ∧
      (drawTile env ((drawTile env st s tileId index flips).1) s' tileId index' flips').1.tiles =
        ((drawTile env st s tileId index flips).1).tiles ∧
      (computeRendererTile env tileset tileId).width = env.tileSize ∧
      (computeRendererTile env tileset tileId).height = env.tileSize := by
  have h₁ : ((drawTile env st s tileId index flips).1).tiles =
      ainsert st.tiles tileId (computeRendererTile env tileset tileId) := by
    simp [drawTile, hneg, hts, hmiss]
  refine ⟨?_, ?_, rfl, rfl⟩
  · rw [h₁, alookup_ainsert_self]
  · simp [drawTile, hneg, hts, h₁, hmiss, alookup_ainsert_self]

/-- C8 witness: the concrete memoization instance for tile id 5. -/
theorem tile_geometry_memoized_witness :
    alookup ((drawTile envW stW Surface.back 5 12 []).1.tiles) 5 =
        some (computeRendererTile envW ⟨160, 1⟩ 5) ∧
      (drawTile envW ((drawTile envW stW Surface.back 5 12 []).1) Surface.back 5 13 []).1.tiles =
        ((drawTile envW stW Surface.back 5 12 []).1).tiles ∧
      (computeRendererTile envW ⟨160, 1⟩ 5).width = envW.tileSize ∧
      (computeRendererTile envW ⟨160, 1⟩ 5).height = envW.tileSize :=
  tile_geometry_memoized envW stW Surface.back Surface.back 5 12 13 [] [] ⟨160, 1⟩
    (by decide) (by decide) (by decide)

theorem flipLoop_ops_subset (s : Surface) (cell : RendererCell) (tempX : Int)
    (acc remaining : List TileFlip) (dx dy : Int) (ops : List CtxOp) :
    ∀ op ∈ (flipLoop s cell tempX acc remaining dx dy ops).2.2.2,
      op ∈ ops ∨ CtxOp.surface op = s := by
  induction acc, remaining, dx, dy, ops using flipLoop.induct s cell tempX with
  | case1 acc dx dy ops =>
      rw [flipLoop]
      exact fun op hop => Or.inl hop
  | case2 acc rest dx dy ops ih =>
      rw [flipLoop]
      intro op hop
      rcases ih op hop with h | h
      · rcases List.mem_append.mp h with h | h
        · exact Or.inl h
        · simp only [List.mem_singleton] at h
          subst h
          exact Or.inr rfl
      · exact Or.inr h
  | case3 acc rest dx dy ops ih =>
      rw [flipLoop]
      intro op hop
      rcases ih op hop with h | h
      · rcases List.mem_append.mp h with h | h
        · exact Or.inl h
        · simp only [List.mem_singleton] at h
          subst h
          exact Or.inr rfl
      · exact Or.inr h
  | case4 acc rest dx dy ops ih =>
      rw [flipLoop]
      intro op hop
      rcases ih op hop with h | h
      · rcases List.mem_append.mp h with h | h
        · exact Or.inl h
        · simp only [List.mem_cons, List.mem_singleton] at h
          rcases h with h | h | h
          · subst h; exact Or.inr rfl
          · subst h; exact Or.inr rfl
          · cases h
      · exact Or.inr h

theorem drawImage_pos (s : Surface) (tile : RendererTile) (cell : RendererCell)
    (flips : List TileFlip) (h : flips.length > 0) :
    drawImage s tile cell flips =
      [CtxOp.save s] ++ (flipLoop s cell cell.dx [] flips cell.dx cell.dy []).2.2.2 ++
        [CtxOp.blit s tile.x tile.y tile.width tile.height
          (jsOr (flipLoop s cell cell.dx [] flips cell.dx cell.dy []).1 cell.dx)
          (jsOr (flipLoop s cell cell.dx [] flips cell.dx cell.dy []).2.1 cell.dy)
          cell.width cell.height] ++
        [CtxOp.restore s] := by
  simp [drawImage, h]

theorem drawImage_zero (s : Surface) (tile : RendererTile) (cell : RendererCell)
    (flips : List TileFlip) (h : ¬ flips.length > 0) :
    drawImage s tile cell flips =
      [CtxOp.blit s tile.x tile.y tile.width tile.height cell.dx cell.dy
        cell.width cell.height] := by
  simp [drawImage, h, jsOr]

theorem drawImage_ops_surface (s : Surface) (tile : RendererTile) (cell : RendererCell)
    (flips : List TileFlip) :
    ∀ op ∈ drawImage s tile cell flips, CtxOp.surface op = s := by
  intro op hop
  by_cases h : flips.length > 0
  · rw [drawImage_pos s tile cell flips h] at hop
    simp only [List.mem_append, List.mem_singleton] at hop
    rcases hop with ((hop | hop) | hop) | hop
    · subst hop; rfl
    · rcases flipLoop_ops_subset s cell cell.dx [] flips cell.dx cell.dy [] op hop with h' | h'
      · cases h'
      · exact h'
    · subst hop; rfl
    · subst hop; rfl
  · rw [drawImage_zero s tile cell flips h] at hop
    simp only [List.mem_singleton] at hop
    subst hop; rfl

theorem drawTile_ops_surface (env : Env) (st : CanvasState) (s : Surface) (tileId : Int)
    (index : Nat) (flips : List TileFlip) :
    ∀ op ∈ (drawTile env st s tileId index flips).2, CtxOp.surface op = s := by
  intro op hop
  unfold drawTile at hop
  by_cases hneg : tileId < 0
  · simp [hneg] at hop
  · cases hts : env.map.getTilesetFromId tileId with
    | none => simp [hneg, hts] at hop
    | some tileset =>
        simp only [hneg, hts, if_neg, if_false] at hop
        exact drawImage_ops_surface s _ _ flips op hop

/-- C2: for a visible non-animated tile, `draw` dispatches to `drawTile` with
the routed surface — foreground for high tiles, else background, overridden by
the overlay surface (regardless of the high/low classification) while an
overlay is active and the tile id is map-flagged as a light tile — and every
context operation the tile produces acts on that surface. -/
theorem draw_layer_routing (env : Env) (st : CanvasState) (t : ClientTile) (index : Nat)
    (hanim : env.map.isAnimatedTile t.tileId = false) :
    drawOne env st t index =
        drawTile env st (routedSurface env t.tileId) t.tileId index (getFlipped t) ∧
      ∀ op ∈ (drawOne env st t index).2,
        CtxOp.surface op = routedSurface env t.tileId := by
  have he : drawOne env st t index =
      drawTile env st (routedSurface env t.tileId) t.tileId index (getFlipped t) := by
    unfold drawOne routedSurface
    by_cases ho : env.hasOverlay <;> by_cases hl : env.map.isLightTile t.tileId <;>
      by_cases hh : env.map.isHighTile t.tileId <;>
        simp [ho, hl, hh, hanim]
  refine ⟨he, ?_⟩
  rw [he]
  exact drawTile_ops_surface env st (routedSurface env t.tileId) t.tileId index (getFlipped t)

/-- C2 witness: concrete routing instances — a high tile with no overlay draws
to the foreground, and the same call shape with an overlay active and a light
tile id draws to the overlay. -/
theorem draw_layer_routing_witness :
    (drawOne envW stW (ClientTile.plain 150) 12 =
        drawTile envW stW (routedSurface envW 150) 150 12 (getFlipped (ClientTile.plain 150)) ∧
      ∀ op ∈ (drawOne envW stW (ClientTile.plain 150) 12).2,
        CtxOp.surface op = routedSurface envW 150) ∧
      routedSurface envW 150 = Surface.fore := by
  refine ⟨draw_layer_routing envW stW (ClientTile.plain 150) 12 (by decide), by decide⟩

/-- Helper for C10: the all-unflipped invariant is preserved by
`addAnimatedTile` (the newly constructed tile has `isFlipped = false` by the
fixed constructor argument). -/
theorem addAnimatedTile_preserves_unflipped (env : Env) (st : CanvasState)
    (tileId index : Int)
    (hinv : ∀ p ∈ st.animatedTiles, p.2.isFlipped = false) :
    ∀ p ∈ (addAnimatedTile env st tileId index).animatedTiles, p.2.isFlipped = false := by
  intro p hp
  unfold addAnimatedTile resetAnimatedTiles at hp
  simp only [List.mem_map] at hp
  obtain ⟨q, hq, rfl⟩ := hp
  rcases mem_ainsert _ _ _ _ hq with h | h
  · subst h; rfl
  · simpa [resetEntry, resetTile] using hinv q h

/-- Helper for C10: from an all-unflipped collection, `drawAnimatedTile` never
takes the de-duplication exit. -/
theorem drawAnimatedTile_no_dedup (env : Env) (st : CanvasState) (tile : Int) (index : Nat)
    (flips : List TileFlip)
    (hinv : ∀ p ∈ st.animatedTiles, p.2.isFlipped = false) :
    (drawAnimatedTile env st tile index flips).2.2 ≠ AnimExit.dedup := by
  unfold drawAnimatedTile
  split
  · simp
  · dsimp only
    split
    · simp
    · rename_i animatedTile heq
      have hmem := alookup_mem _ _ _ heq
      have hf : animatedTile.isFlipped = false := by
        revert hmem
        split <;> split <;> intro hmem
        · exact addAnimatedTile_preserves_unflipped env st tile _ hinv _ hmem
        · exact hinv _ hmem
        · exact addAnimatedTile_preserves_unflipped env st tile _ hinv _ hmem
        · exact hinv _ hmem
      rw [if_neg (by simp [hf])]
      simp

/-- C10: every animated tile stored by the renderer has its flipped flag equal
to `false` — `addAnimatedTile` always constructs the `Tile` with the
`isFlipped` argument fixed to `false`, so the all-unflipped invariant is
preserved — and consequently `drawAnimatedTile` never takes the
de-duplication exit from a renderer state satisfying the invariant. -/
theorem animated_tiles_unflipped_never_dedup (env : Env) (st : CanvasState)
    (tileId index' : Int) (tile : Int) (index : Nat) (flips : List TileFlip)
    (hinv : ∀ p ∈ st.animatedTiles, p.2.isFlipped = false) :
    (∀ p ∈ (addAnimatedTile env st tileId index').animatedTiles, p.2.isFlipped = false) ∧
      (drawAnimatedTile env st tile index flips).2.2 ≠ AnimExit.dedup :=
  ⟨addAnimatedTile_preserves_unflipped env st tileId index' hinv,
   drawAnimatedTile_no_dedup env st tile index flips hinv⟩

/-- C10 witness: the concrete instance on the empty collection — after adding
tile id 7 every entry is unflipped, and the animated draw of tile id 7 does
not exit through the de-duplication branch. -/
theorem animated_tiles_unflipped_never_dedup_witness :
    (∀ p ∈ (addAnimatedTile envW stW 7 (-1)).animatedTiles, p.2.isFlipped = false) ∧
      (drawAnimatedTile envW stW 7 12 []).2.2 ≠ AnimExit.dedup :=
  animated_tiles_unflipped_never_dedup envW stW 7 (-1) 7 12 [] (by simp [stW])

/-- C6: for a non-animated low tile with no flips at an uncached map index and
no active overlay, `draw`'s per-tile dispatch caches exactly the cell geometry
`dx = ceil((index mod width) * actualTileSize)`,
`dy = ceil((index / width) * actualTileSize)` with width and height
`ceil(actualTileSize)`, and issues its single blit on the background surface. -/
theorem cell_geometry_background (env : Env) (st : CanvasState) (tileId : Int)
    (index : Nat) (tileset : Tileset)
    (hneg : ¬ tileId < 0) (hts : env.map.getTilesetFromId tileId = some tileset)
    (hmiss : alookup st.cells index = none)
    (hanim : env.map.isAnimatedTile tileId = false)
    (hlow : env.map.isHighTile tileId = false)
    (hov : env.hasOverlay = false) :
    alookup ((drawOne env st (ClientTile.plain tileId) index).1.cells) index =
        some { dx := ⌈((index % env.map.width : Nat) : ℚ) * env.actualTileSize⌉
               dy := ⌈((index / env.map.width : Nat) : ℚ) * env.actualTileSize⌉
               width := ⌈env.actualTileSize⌉
               height := ⌈env.actualTileSize⌉ } ∧
      ((drawOne env st (ClientTile.plain tileId) index).2.filter CtxOp.isBlit).map
          CtxOp.surface = [Surface.back] := by
  have hx : getX ((index : Int) + 1) env.map.width = ((index % env.map.width : Nat) : Int) := by
    unfold getX
    rw [add_sub_cancel_right]
    norm_cast
  have hcell : computeRendererCell env index =
      { dx := ⌈((index % env.map.width : Nat) : ℚ) * env.actualTileSize⌉
        dy := ⌈((index / env.map.width : Nat) : ℚ) * env.actualTileSize⌉
        width := ⌈env.actualTileSize⌉
        height := ⌈env.actualTileSize⌉ } := by
    unfold computeRendererCell
    rw [hx]
    push_cast
    rfl
  constructor
  · rw [← hcell]
    simp [drawOne, ClientTile.tileId, getFlipped, isFlippedTile, hanim, hlow, hov, drawTile,
      hneg, hts, hmiss, alookup_ainsert_self]
  · simp [drawOne, ClientTile.tileId, getFlipped, isFlippedTile, hanim, hlow, hov, drawTile,
      hneg, hts, hmiss, drawImage, CtxOp.isBlit, CtxOp.surface]

/-- C6 witness: tile id 5 at map index 12 on the width-10 map with zoomed tile
size 47.5 — the cached cell is `(95, 48, 48, 48)` and the single blit targets
the background surface. -/
theorem cell_geometry_background_witness :
    alookup ((drawOne envW stW (ClientTile.plain 5) 12).1.cells) 12 =
        some { dx := ⌈((12 % envW.map.width : Nat) : ℚ) * envW.actualTileSize⌉
               dy := ⌈((12 / envW.map.width : Nat) : ℚ) * envW.actualTileSize⌉
               width := ⌈envW.actualTileSize⌉
               height := ⌈envW.actualTileSize⌉ } ∧
      ((drawOne envW stW (ClientTile.plain 5) 12).2.filter CtxOp.isBlit).map
          CtxOp.surface = [Surface.back] :=
  cell_geometry_background envW stW 5 12 ⟨160, 1⟩ (by decide) (by decide) (by decide)
    (by decide) (by decide) (by decide)

theorem flipLoop_diagFree (s : Surface) (cell : RendererCell) (tempX : Int) :
    ∀ (remaining acc : List TileFlip) (dx dy : Int) (ops : List CtxOp),
      countDiag remaining = 0 →
      (flipLoop s cell tempX acc remaining dx dy ops).2.2.1 = acc ++ remaining ∧
        (flipLoop s cell tempX acc remaining dx dy ops).2.2.2 =
          ops ++ remaining.map (scaleOpFor s) := by
  intro remaining
  induction remaining with
  | nil =>
      intro acc dx dy ops _
      rw [flipLoop]
      simp
  | cons f rest ih =>
      intro acc dx dy ops hc
      cases f with
      | Horizontal =>
          have hc' : countDiag rest = 0 := by simpa [countDiag] using hc
          rw [flipLoop]
          obtain ⟨h1, h2⟩ := ih (acc ++ [TileFlip.Horizontal]) (-dx - cell.width) dy
            (ops ++ [CtxOp.scaleOp s (-1) 1]) hc'
          refine ⟨?_, ?_⟩
          · rw [h1]; simp
          · rw [h2]; simp [scaleOpFor]
      | Vertical =>
          have hc' : countDiag rest = 0 := by simpa [countDiag] using hc
          rw [flipLoop]
          obtain ⟨h1, h2⟩ := ih (acc ++ [TileFlip.Vertical]) dx (-dy - cell.height)
            (ops ++ [CtxOp.scaleOp s 1 (-1)]) hc'
          refine ⟨?_, ?_⟩
          · rw [h1]; simp
          · rw [h2]; simp [scaleOpFor]
      | Diagonal => simp [countDiag] at hc

theorem flipLoop_pre (s : Surface) (cell : RendererCell) (tempX : Int) :
    ∀ (pre : List TileFlip), countDiag pre = 0 →
      ∀ (acc rem : List TileFlip) (dx dy : Int) (ops : List CtxOp),
        ∃ dx' dy',
          flipLoop s cell tempX acc (pre ++ rem) dx dy ops =
            flipLoop s cell tempX (acc ++ pre) rem dx' dy'
              (ops ++ pre.map (scaleOpFor s)) := by
  intro pre
  induction pre with
  | nil =>
      intro _ acc rem dx dy ops
      exact ⟨dx, dy, by simp⟩
  | cons f rest ih =>
      intro hc acc rem dx dy ops
      cases f with
      | Horizontal =>
          have hc' : countDiag rest = 0 := by simpa [countDiag] using hc
          obtain ⟨dx', dy', he⟩ := ih hc' (acc ++ [TileFlip.Horizontal]) rem (-dx - cell.width)
            dy (ops ++ [CtxOp.scaleOp s (-1) 1])
          refine ⟨dx', dy', ?_⟩
          rw [List.cons_append, flipLoop, he]
          simp [scaleOpFor]
      | Vertical =>
          have hc' : countDiag rest = 0 := by simpa [countDiag] using hc
          obtain ⟨dx', dy', he⟩ := ih hc' (acc ++ [TileFlip.Vertical]) rem dx
            (-dy - cell.height) (ops ++ [CtxOp.scaleOp s 1 (-1)])
          refine ⟨dx', dy', ?_⟩
          rw [List.cons_append, flipLoop, he]
          simp [scaleOpFor]
      | Diagonal => simp [countDiag] at hc

theorem flipLoop_final_length (s : Surface) (cell : RendererCell) (tempX : Int)
    (acc remaining : List TileFlip) (dx dy : Int) (ops : List CtxOp) :
    (flipLoop s cell tempX acc remaining dx dy ops).2.2.1.length =
      acc.length + remaining.length + countDiag remaining := by
  induction acc, remaining, dx, dy, ops using flipLoop.induct s cell tempX with
  | case1 acc dx dy ops => rw [flipLoop]; simp [countDiag]
  | case2 acc rest dx dy ops ih =>
      rw [flipLoop]
      rw [ih]
      simp [countDiag]
      omega
  | case3 acc rest dx dy ops ih =>
      rw [flipLoop]
      rw [ih]
      simp [countDiag]
      omega
  | case4 acc rest dx dy ops ih =>
      rw [flipLoop]
      rw [ih]
      simp [countDiag, countDiag_append, countDiag_synthFlip]
      omega

/-- C1: when `drawImage`'s adjustment loop processes a `Diagonal`, it appends
a synthetic flip to the list it is iterating — `Horizontal` exactly when the
element immediately following the `Diagonal` is `Horizontal`, else `Vertical`
(also when nothing follows) — and the iteration observes and processes the
appended element: it lands in the final iterated list and its scale operation
is emitted after the diagonal's rotate/translate pair.  In general every
processed `Diagonal` grows the final iterated list by exactly one element. -/
theorem diagonal_appends_synthetic (s : Surface) (cell : RendererCell) (tempX : Int)
    (pre rest : List TileFlip) (dx dy : Int)
    (hpre : countDiag pre = 0) (hrest : countDiag rest = 0) :
    (flipLoop s cell tempX [] (pre ++ TileFlip.Diagonal :: rest) dx dy []).2.2.1 =
        pre ++ TileFlip.Diagonal :: (rest ++ [synthFlip rest]) ∧
      (flipLoop s cell tempX [] (pre ++ TileFlip.Diagonal :: rest) dx dy []).2.2.2 =
        pre.map (scaleOpFor s) ++
          CtxOp.rotateQuarter s :: CtxOp.translateOp s 0 (-cell.height) ::
            (rest.map (scaleOpFor s) ++ [scaleOpFor s (synthFlip rest)]) ∧
      (synthFlip rest = TileFlip.Horizontal ↔ rest.head? = some TileFlip.Horizontal) ∧
      ∀ (acc remaining : List TileFlip) (dx' dy' : Int) (ops : List CtxOp),
        (flipLoop s cell tempX acc remaining dx' dy' ops).2.2.1.length =
          acc.length + remaining.length + countDiag remaining := by
  obtain ⟨dx', dy', he⟩ :=
    flipLoop_pre s cell tempX pre hpre [] (TileFlip.Diagonal :: rest) dx dy []
  have hfree : countDiag (rest ++ [synthFlip rest]) = 0 := by
    rw [countDiag_append, hrest, countDiag_synthFlip]
  obtain ⟨h1, h2⟩ := flipLoop_diagFree s cell tempX (rest ++ [synthFlip rest])
    (([] ++ pre) ++ [TileFlip.Diagonal]) dy' (-tempX)
    (([] ++ pre.map (scaleOpFor s)) ++
      [CtxOp.rotateQuarter s, CtxOp.translateOp s 0 (-cell.height)]) hfree
  refine ⟨?_, ?_, ?_, fun acc remaining dx' dy' ops =>
    flipLoop_final_length s cell tempX acc remaining dx' dy' ops⟩
  · rw [he, flipLoop, h1]
    simp
  · rw [he, flipLoop, h2]
    simp
  · unfold synthFlip
    split
    · rename_i hh
      simpa using hh
    · rename_i hh
      simp [hh]

/-- C1 witness: the transform list `[Vertical, Diagonal, Horizontal]` — the
element following the `Diagonal` is `Horizontal`, so a synthetic `Horizontal`
is appended and processed, and the final iterated list is
`[Vertical, Diagonal, Horizontal, Horizontal]`. -/
theorem diagonal_appends_synthetic_witness :
    (flipLoop Surface.back ⟨3, 5, 48, 48⟩ 3 []
          ([TileFlip.Vertical] ++ TileFlip.Diagonal :: [TileFlip.Horizontal]) 3 5 []).2.2.1 =
        [TileFlip.Vertical] ++ TileFlip.Diagonal ::
          ([TileFlip.Horizontal] ++ [synthFlip [TileFlip.Horizontal]]) ∧
      (flipLoop Surface.back ⟨3, 5, 48, 48⟩ 3 []
          ([TileFlip.Vertical] ++ TileFlip.Diagonal :: [TileFlip.Horizontal]) 3 5 []).2.2.2 =
        [TileFlip.Vertical].map (scaleOpFor Surface.back) ++
          CtxOp.rotateQuarter Surface.back :: CtxOp.translateOp Surface.back 0 (-48) ::
            ([TileFlip.Horizontal].map (scaleOpFor Surface.back) ++
              [scaleOpFor Surface.back (synthFlip [TileFlip.Horizontal])]) ∧
      (synthFlip [TileFlip.Horizontal] = TileFlip.Horizontal ↔
        [TileFlip.Horizontal].head? = some TileFlip.Horizontal) := by
  have hmain := diagonal_appends_synthetic Surface.back ⟨3, 5, 48, 48⟩ 3
    [TileFlip.Vertical] [TileFlip.Horizontal] 3 5 (by decide) (by decide)
  exact ⟨hmain.1, hmain.2.1, hmain.2.2.1⟩

theorem flipLoop_ops_not_blit (s : Surface) (cell : RendererCell) (tempX : Int)
    (acc remaining : List TileFlip) (dx dy : Int) (ops : List CtxOp) :
    ∀ op ∈ (flipLoop s cell tempX acc remaining dx dy ops).2.2.2,
      op ∈ ops ∨ CtxOp.isBlit op = false := by
  induction acc, remaining, dx, dy, ops using flipLoop.induct s cell tempX with
  | case1 acc dx dy ops =>
      rw [flipLoop]
      exact fun op hop => Or.inl hop
  | case2 acc rest dx dy ops ih =>
      rw [flipLoop]
      intro op hop
      rcases ih op hop with h | h
      · rcases List.mem_append.mp h with h | h
        · exact Or.inl h
        · simp only [List.mem_singleton] at h
          subst h
          exact Or.inr rfl
      · exact Or.inr h
  | case3 acc rest dx dy ops ih =>
      rw [flipLoop]
      intro op hop
      rcases ih op hop with h | h
      · rcases List.mem_append.mp h with h | h
        · exact Or.inl h
        · simp only [List.mem_singleton] at h
          subst h
          exact Or.inr rfl
      · exact Or.inr h
  | case4 acc rest dx dy ops ih =>
      rw [flipLoop]
      intro op hop
      rcases ih op hop with h | h
      · rcases List.mem_append.mp h with h | h
        · exact Or.inl h
        · simp only [List.mem_cons, List.mem_singleton] at h
          rcases h with h | h | h
          · subst h; exact Or.inr rfl
          · subst h; exact Or.inr rfl
          · cases h
      · exact Or.inr h

theorem drawImage_filter_blit_pos (s : Surface) (tile : RendererTile) (cell : RendererCell)
    (flips : List TileFlip) (h : flips.length > 0) :
    (drawImage s tile cell flips).filter CtxOp.isBlit =
      [CtxOp.blit s tile.x tile.y tile.width tile.height
        (jsOr (flipLoop s cell cell.dx [] flips cell.dx cell.dy []).1 cell.dx)
        (jsOr (flipLoop s cell cell.dx [] flips cell.dx cell.dy []).2.1 cell.dy)
        cell.width cell.height] := by
  rw [drawImage_pos s tile cell flips h]
  have hno : (flipLoop s cell cell.dx [] flips cell.dx cell.dy []).2.2.2.filter
      CtxOp.isBlit = [] := by
    rw [List.filter_eq_nil_iff]
    intro op hop
    rcases flipLoop_ops_not_blit s cell cell.dx [] flips cell.dx cell.dy [] op hop with h' | h'
    · cases h'
    · simp [h']
  simp [List.filter_append, hno, CtxOp.isBlit]

theorem drawImage_blit_count (s : Surface) (tile : RendererTile) (cell : RendererCell)
    (flips : List TileFlip) :
    ((drawImage s tile cell flips).filter CtxOp.isBlit).length = 1 := by
  by_cases h : flips.length > 0
  · rw [drawImage_filter_blit_pos s tile cell flips h]
    rfl
  · rw [drawImage_zero s tile cell flips h]
    rfl

/-- C7 counterexample: for a `Diagonal` transform of the cell at column 3 of
row 0, the adjusted destination after the loop is `(0, -45)` — the adjusted x
equals 0 — but the issued blit lands at x = 3 (the cached `cell.dx`, through
the JavaScript `dx || cell.dx` fallback), so the claim that the blit always
uses the adjusted coordinates is false at this input. -/
theorem drawImage_adjusted_dest_refuted :
    ¬ (drawImage Surface.back tileC7 cellC7 [TileFlip.Diagonal]).filter CtxOp.isBlit =
        [CtxOp.blit Surface.back tileC7.x tileC7.y tileC7.width tileC7.height
          (flipLoop Surface.back cellC7 cellC7.dx [] [TileFlip.Diagonal]
            cellC7.dx cellC7.dy []).1
          (flipLoop Surface.back cellC7 cellC7.dx [] [TileFlip.Diagonal]
            cellC7.dx cellC7.dy []).2.1
          cellC7.width cellC7.height] := by
  simp [drawImage, flipLoop, synthFlip, jsOr, CtxOp.isBlit, tileC7, cellC7]

/-- C7 amended: with an empty transform list the blit destination is exactly
the cached cell rectangle; with a non-empty transform list the blit uses the
destination coordinates as adjusted by the transform sequence, except that an
adjusted coordinate equal to 0 falls back to the cached cell coordinate (the
JavaScript `||` treats 0 as falsy). -/
theorem drawImage_blit_dest (s : Surface) (tile : RendererTile) (cell : RendererCell)
    (flips : List TileFlip) :
    (flips.length = 0 →
        drawImage s tile cell flips =
          [CtxOp.blit s tile.x tile.y tile.width tile.height cell.dx cell.dy
            cell.width cell.height]) ∧
      (flips.length > 0 →
        (drawImage s tile cell flips).filter CtxOp.isBlit =
          [CtxOp.blit s tile.x tile.y tile.width tile.height
            (jsOr (flipLoop s cell cell.dx [] flips cell.dx cell.dy []).1 cell.dx)
            (jsOr (flipLoop s cell cell.dx [] flips cell.dx cell.dy []).2.1 cell.dy)
            cell.width cell.height]) :=
  ⟨fun h => drawImage_zero s tile cell flips (by omega),
   fun h => drawImage_filter_blit_pos s tile cell flips h⟩

/-- C7 amended-claim witness: the empty-transform blit at the cell rectangle,
and the diagonal-transform blit at the `||`-adjusted coordinates, on the C7
input. -/
theorem drawImage_blit_dest_witness :
    drawImage Surface.back tileC7 cellC7 [] =
        [CtxOp.blit Surface.back tileC7.x tileC7.y tileC7.width tileC7.height
          cellC7.dx cellC7.dy cellC7.width cellC7.height] ∧
      (drawImage Surface.back tileC7 cellC7 [TileFlip.Diagonal]).filter CtxOp.isBlit =
        [CtxOp.blit Surface.back tileC7.x tileC7.y tileC7.width tileC7.height
          (jsOr (flipLoop Surface.back cellC7 cellC7.dx [] [TileFlip.Diagonal]
            cellC7.dx cellC7.dy []).1 cellC7.dx)
          (jsOr (flipLoop Surface.back cellC7 cellC7.dx [] [TileFlip.Diagonal]
            cellC7.dx cellC7.dy []).2.1 cellC7.dy)
          cellC7.width cellC7.height] :=
  ⟨(drawImage_blit_dest Surface.back tileC7 cellC7 []).1 rfl,
   (drawImage_blit_dest Surface.back tileC7 cellC7 [TileFlip.Diagonal]).2 (by decide)⟩

/-- C5: for one animated, non-dynamically-animated tile id visible at two map
indices — one carrying flip transforms, one plain — a single `draw()` pass
issues exactly two blits, the flipped index drawn through `drawImage` with its
transform list and the plain index drawn with the empty transform list; in
particular the de-duplication guard suppresses neither draw (the stored
animated tile is constructed unflipped). -/
theorem animated_tile_two_indices_two_blits (env : Env) (st : CanvasState) (tid : Int)
    (idx₁ idx₂ : Nat) (h v d : Bool) (tileset : Tileset)
    (hflag : (h || v || d) = true)
    (hanimate : env.animateTiles = true)
    (hframe : env.hasRenderedFrame = false)
    (hanim : env.map.isAnimatedTile tid = true)
    (hdyn₁ : env.map.dynamicAnimatedTiles idx₁ = false)
    (hdyn₂ : env.map.dynamicAnimatedTiles idx₂ = false)
    (hne : idx₁ ≠ idx₂)
    (hmissA : alookup st.animatedTiles (TileIdent.plain tid) = none)
    (hmissT : alookup st.tiles (tid + 1) = none)
    (hmissC₁ : alookup st.cells idx₁ = none)
    (hmissC₂ : alookup st.cells idx₂ = none)
    (hneg : ¬ tid + 1 < 0)
    (hts : env.map.getTilesetFromId (tid + 1) = some tileset) :
    (draw env st [(ClientTile.transformed tid h v d, idx₁),
        (ClientTile.plain tid, idx₂)]).2 =
        drawImage (if env.map.isHighTile tid then Surface.fore else Surface.back)
            (computeRendererTile env tileset (tid + 1)) (computeRendererCell env idx₁)
            (getFlipped (ClientTile.transformed tid h v d)) ++
          drawImage (if env.map.isHighTile tid then Surface.fore else Surface.back)
            (computeRendererTile env tileset (tid + 1)) (computeRendererCell env idx₂) [] ∧
      ((draw env st [(ClientTile.transformed tid h v d, idx₁),
          (ClientTile.plain tid, idx₂)]).2.filter CtxOp.isBlit).length = 2 ∧
      getFlipped (ClientTile.transformed tid h v d) ≠ [] := by
  have hgf : getFlipped (ClientTile.plain tid) = [] := by
    simp [getFlipped, isFlippedTile]
  have hreset : ∀ (i ix : Int) (a : Nat) (f hi : Bool) (ai la : Nat),
      resetTile (Tile.mk i ix a f hi ai la) = Tile.mk i ix a f hi 0 la := fun _ _ _ _ _ _ _ => rfl
  have hlk2 : alookup (ainsert st.cells idx₁ (computeRendererCell env idx₁)) idx₂ = none := by
    rw [alookup_ainsert_ne _ _ _ _ hne]
    exact hmissC₂
  have hmain : (draw env st [(ClientTile.transformed tid h v d, idx₁),
      (ClientTile.plain tid, idx₂)]).2 =
      drawImage (if env.map.isHighTile tid then Surface.fore else Surface.back)
          (computeRendererTile env tileset (tid + 1)) (computeRendererCell env idx₁)
          (getFlipped (ClientTile.transformed tid h v d)) ++
        drawImage (if env.map.isHighTile tid then Surface.fore else Surface.back)
          (computeRendererTile env tileset (tid + 1)) (computeRendererCell env idx₂) [] := by
    simp [draw, hframe, drawVisible, drawOne, ClientTile.tileId, hanim, hanimate,
      drawAnimatedTile, hdyn₁, hdyn₂, hmissA, addAnimatedTile, resetAnimatedTiles,
      Tile.create, hreset, alookup_map_resetEntry, alookup_ainsert_self, hgf, hlk2,
      drawTile, hneg, hts, hmissT, hmissC₁]
  refine ⟨hmain, ?_, ?_⟩
  · rw [hmain, List.filter_append, List.length_append, drawImage_blit_count,
      drawImage_blit_count]
  · cases h <;> cases v <;> cases d <;>
      simp_all [getFlipped, isFlippedTile, ClientTile.hFlag, ClientTile.vFlag,
        ClientTile.dFlag]

/-- C5 witness: animated tile id 7 visible horizontally flipped at index 3 and
plain at index 12 of the concrete map — one `draw` pass produces the two
`drawImage` traces and exactly two blits. -/
theorem animated_tile_two_indices_two_blits_witness :
    (draw envW stW [(ClientTile.transformed 7 true false false, 3),
        (ClientTile.plain 7, 12)]).2 =
        drawImage (if envW.map.isHighTile 7 then Surface.fore else Surface.back)
            (computeRendererTile envW ⟨160, 1⟩ (7 + 1)) (computeRendererCell envW 3)
            (getFlipped (ClientTile.transformed 7 true false false)) ++
          drawImage (if envW.map.isHighTile 7 then Surface.fore else Surface.back)
            (computeRendererTile envW ⟨160, 1⟩ (7 + 1)) (computeRendererCell envW 12) [] ∧
      ((draw envW stW [(ClientTile.transformed 7 true false false, 3),
          (ClientTile.plain 7, 12)]).2.filter CtxOp.isBlit).length = 2 ∧
      getFlipped (ClientTile.transformed 7 true false false) ≠ [] :=
  animated_tile_two_indices_two_blits envW stW 7 3 12 true false false ⟨160, 1⟩
    (by decide) (by decide) (by decide) (by decide) (by decide) (by decide) (by decide)
    (by decide) (by decide) (by decide) (by decide) (by decide) (by decide)
